import Mathlib

/-!
Shallow embedding of the MIDI parser in `src/script.js` (class `MidiParser`,
lines 1-113) together with theorems settling the specification claims.

Modelling conventions:
* A byte buffer (`Uint8Array`) is a `List Nat`; real buffers have entries
  below 256.
* The cursor `this.pos` is an `Int`: the script adds arbitrary (possibly
  negative) amounts to it (`readBytes` is called with lengths produced by
  `readVarLength`, which can be negative, see below).
* An out-of-range index read on a `Uint8Array` yields `undefined`; the raw
  read is modelled as `Option Nat` (`none` = `undefined`).  Wherever the
  script feeds the byte to a bitwise operator, JavaScript coerces
  `undefined` to 0 (ToInt32(NaN) = 0), modelled by `Option.getD 0`.
* JavaScript bitwise operators (`<<`, `|`, `&`) work on 32-bit two's
  complement integers; `toUint32` / `toInt32` / `jsShl` / `jsOr` model that
  arithmetic exactly.  This matters: `readVarLength` accumulates with
  `(result << 7) | (byte & 0x7f)`, which wraps at 2^31.  Where the script
  applies `&` to a plain in-range byte (always < 256 on real buffers) we
  use `Nat` `&&&` directly, which agrees with the 32-bit semantics there.
* `time` values (`currentTime`) are JavaScript numbers used only through
  exact-integer addition; they are modelled as `Int`.
-/

namespace MidiParser

/-- JavaScript ToUint32: the number reduced mod 2^32 into `[0, 2^32)`. -/
def toUint32 (n : Int) : Nat := (n % 4294967296).toNat

/-- JavaScript ToInt32: reduce mod 2^32 and reinterpret as a signed 32-bit value. -/
def toInt32 (n : Int) : Int :=
  let u := toUint32 n
  if u < 2147483648 then (u : Int) else (u : Int) - 4294967296

/-- JavaScript `a << k` for a constant shift `k < 32` (32-bit signed result). -/
def jsShl (a : Int) (k : Nat) : Int := toInt32 ((toUint32 a <<< k : Nat) : Int)

/-- JavaScript `a | b` (32-bit signed result). -/
def jsOr (a b : Int) : Int := toInt32 ((Nat.lor (toUint32 a) (toUint32 b) : Nat) : Int)

/-- The raw indexed read `this.data[i]`: `none` models `undefined`
    (index negative or past the end of the buffer). -/
def jsByte (data : List Nat) (i : Int) : Option Nat :=
  if 0 ≤ i then (data.drop i.toNat).head? else none

/-- `Uint8Array.prototype.slice(start, stop)` index arithmetic: negative
    indices count from the end, both ends are clamped to the buffer. -/
def jsSlice (data : List Nat) (start stop : Int) : List Nat :=
  let len : Int := data.length
  let s := if start < 0 then max (len + start) 0 else min start len
  let e := if stop < 0 then max (len + stop) 0 else min stop len
  (data.take e.toNat).drop s.toNat

/-- `readBytes(n)` (script lines 8-12): returns `data.slice(pos, pos + n)`
    and advances `pos` by `n` unconditionally (no bounds check; `n` can be
    negative, moving the cursor backwards). -/
def readBytes (data : List Nat) (pos n : Int) : List Nat × Int :=
  (jsSlice data pos (pos + n), pos + n)

/-- The do/while body of `readVarLength` (script lines 17-20), walking the
    buffer suffix that starts at the cursor.  Running off the end of the
    list models the JavaScript read of `undefined` (coerced to 0 by the
    bitwise operators), which clears the continuation bit and stops the
    loop after one further iteration.  Returns the accumulated result and
    the number of bytes consumed. -/
def rvlAux : List Nat → Int → Int × Nat
  | [], result => (jsOr (jsShl result 7) 0, 1)
  | b :: bs, result =>
    let result' := jsOr (jsShl result 7) ((b &&& 0x7f : Nat) : Int)
    if (b &&& 0x80 : Nat) ≠ 0 then
      let (res, n) := rvlAux bs result'
      (res, n + 1)
    else
      (result', 1)

/-- `readVarLength()` (script lines 14-22): base-128 accumulation in 32-bit
    signed arithmetic.  Returns the decoded value and the new cursor.
    At a negative cursor the first read is already `undefined`, so exactly
    one iteration runs and the result is `(0 << 7) | 0 = 0`. -/
def readVarLength (data : List Nat) (pos : Int) : Int × Int :=
  if pos < 0 then
    (0, pos + 1)
  else
    let (res, n) := rvlAux (data.drop pos.toNat) 0
    (res, pos + (n : Int))

/-- `readInt16()` (script lines 101-105): `(data[pos] << 8) | data[pos+1]`,
    out-of-range bytes coerced to 0. -/
def readInt16 (data : List Nat) (pos : Int) : Int × Int :=
  let b0 := (((jsByte data pos).getD 0 : Nat) : Int)
  let b1 := (((jsByte data (pos + 1)).getD 0 : Nat) : Int)
  (jsOr (jsShl b0 8) b1, pos + 2)

/-- `readInt32()` (script lines 107-112): big-endian 32-bit read in JavaScript
    `<< / |` arithmetic; a first byte ≥ 0x80 yields a negative value. -/
def readInt32 (data : List Nat) (pos : Int) : Int × Int :=
  let b0 := (((jsByte data pos).getD 0 : Nat) : Int)
  let b1 := (((jsByte data (pos + 1)).getD 0 : Nat) : Int)
  let b2 := (((jsByte data (pos + 2)).getD 0 : Nat) : Int)
  let b3 := (((jsByte data (pos + 3)).getD 0 : Nat) : Int)
  (jsOr (jsOr (jsOr (jsShl b0 24) (jsShl b1 16)) (jsShl b2 8)) b3, pos + 4)

/-- The two event-object shapes pushed by `parseTrack` (script lines 79-84
    and 86-90).  `note`/`velocity` hold the raw JavaScript value of the read
    data byte, so `none` models `undefined` from an out-of-range read. -/
inductive RawEvent
  | noteOn (time : Int) (note velocity : Option Nat)
  | noteOff (time : Int) (note : Option Nat)
deriving DecidableEq, Repr

/-- The `time` field common to both event shapes. -/
def RawEvent.time : RawEvent → Int
  | .noteOn t _ _ => t
  | .noteOff t _ => t

/-- The track object `{ events }` returned by `parseTrack` (script line 98). -/
structure Track where
  events : List RawEvent
deriving DecidableEq, Repr

/-- The mutable state of one iteration of the `parseTrack` event loop
    (script lines 51-96): cursor, accumulated absolute time, the
    `runningStatus` variable (assigned at line 70) and the events pushed
    so far. -/
structure TrackState where
  pos : Int
  currentTime : Int
  runningStatus : Nat
  events : List RawEvent
deriving DecidableEq, Repr

/-- JavaScript `x > 0` where `x` is a possibly-`undefined` byte
    (`undefined > 0` is false). -/
def jsNumGtZero (x : Option Nat) : Bool :=
  match x with
  | some v => decide (0 < v)
  | none => false

/-- One iteration of the `while (this.pos < trackEnd)` body of `parseTrack`
    (script lines 54-95): read the delta time, classify the next byte
    (meta / sysex / status byte / bare data byte) and advance the state. -/
def stepEvent (data : List Nat) (s : TrackState) : TrackState :=
  let (deltaTime, pos) := readVarLength data s.pos
  let currentTime := s.currentTime + deltaTime
  let byte? := jsByte data pos
  let byte := byte?.getD 0
  if byte? == some 0xff then
    -- Meta event: skip the status byte and the meta-type byte, then skip
    -- a var-length-sized payload.  The meta-type value never affects
    -- control flow.
    let pos := pos + 2
    let (length, pos) := readVarLength data pos
    let (_skipped, pos) := readBytes data pos length
    { s with pos := pos, currentTime := currentTime }
  else if byte? == some 0xf0 || byte? == some 0xf7 then
    -- SysEx event: skip the status byte, then a var-length-sized payload.
    let pos := pos + 1
    let (length, pos) := readVarLength data pos
    let (_skipped, pos) := readBytes data pos length
    { s with pos := pos, currentTime := currentTime }
  else if (byte &&& 0x80 : Nat) ≠ 0 then
    -- New status byte: record it and consume two data bytes.
    let runningStatus := byte
    let data1 := jsByte data (pos + 1)
    let data2 := jsByte data (pos + 2)
    let pos := pos + 3
    let status := runningStatus &&& 0xf0
    if status == 0x90 && jsNumGtZero data2 then
      { pos := pos, currentTime := currentTime, runningStatus := runningStatus,
        events := s.events ++ [.noteOn currentTime data1 data2] }
    else if status == 0x80 || (status == 0x90 && data2 == some 0) then
      { pos := pos, currentTime := currentTime, runningStatus := runningStatus,
        events := s.events ++ [.noteOff currentTime data1] }
    else
      { pos := pos, currentTime := currentTime, runningStatus := runningStatus,
        events := s.events }
  else
    -- Bare data byte (running-status continuation): the script reads the
    -- current byte as data1 and the following byte as data2 (lines 93-94)
    -- and discards both; no event is pushed and runningStatus is not
    -- consulted.
    { s with pos := pos + 2, currentTime := currentTime }

/-- The `while (this.pos < trackEnd)` loop of `parseTrack`.  The loop can
    genuinely diverge (a meta event whose 32-bit-wrapped negative length
    moves the cursor back to where the iteration started), so it is
    modelled with explicit fuel; `none` means the loop did not finish
    within `fuel` iterations. -/
def trackLoop (data : List Nat) (trackEnd : Int) : Nat → TrackState → Option TrackState
  | fuel, s =>
    if s.pos < trackEnd then
      match fuel with
      | 0 => none
      | fuel + 1 => trackLoop data trackEnd fuel (stepEvent data s)
    else
      some s

/-- `parseTrack(division)` (script lines 45-99): read (and discard) the
    4-byte chunk tag, read the 32-bit chunk length, compute
    `trackEnd = pos + trackLength`, then run the event loop from a fresh
    state.  Returns the track object and the final cursor.  The `division`
    argument is threaded through but never used, exactly as in the script. -/
def parseTrack (data : List Nat) (pos : Int) (division : Int) (fuel : Nat) :
    Option (Track × Int) :=
  let (_trackHeader, pos) := readBytes data pos 4
  let (trackLength, pos) := readInt32 data pos
  let trackEnd := pos + trackLength
  (trackLoop data trackEnd fuel
      { pos := pos, currentTime := 0, runningStatus := 0, events := [] }).map
    fun s => ({ events := s.events }, s.pos)

/-- The per-track maximum `Math.max(...t.events.map(e => e.time), 0)`
    (script line 41, inner reduction): never empty because of the extra
    `0` argument. -/
def trackMaxTime (t : Track) : Int :=
  (t.events.map RawEvent.time).foldr max 0

/-- The outer `Math.max(...tracks.map(...))` of script line 41.  JavaScript
    `Math.max()` with no arguments is `-Infinity`; that value is modelled
    as `none`. -/
def maxTimeOf (tracks : List Track) : Option Int :=
  tracks.foldr
    (fun t acc =>
      match acc with
      | none => some (trackMaxTime t)
      | some m => some (max (trackMaxTime t) m))
    none

/-- The object returned by `parse()` (script lines 36-42).  `maxTime` is
    `Option Int` with `none` standing for JavaScript `-Infinity`. -/
structure Sequence where
  format : Int
  trackCount : Int
  division : Int
  tracks : List Track
  maxTime : Option Int
deriving DecidableEq, Repr

/-- The `for (let i = 0; i < trackCount; i++)` loop of `parse` (script
    lines 32-34), threading the cursor through successive `parseTrack`
    calls. -/
def parseTracks (data : List Nat) (division : Int) (fuel : Nat) :
    Nat → Int → Option (List Track × Int)
  | 0, pos => some ([], pos)
  | n + 1, pos =>
    (parseTrack data pos division fuel).bind fun tp =>
      (parseTracks data division fuel n tp.2).map fun tsp => (tp.1 :: tsp.1, tsp.2)

/-- `parse()` (script lines 24-43): read the header chunk tag (discarded),
    the declared header length (read into a local and never used), the
    three 16-bit fields, then `trackCount` tracks, and assemble the result
    object.  `fuel` bounds each track's event loop; `none` means some
    track's loop did not terminate within the fuel. -/
def parse (data : List Nat) (fuel : Nat) : Option Sequence :=
  let pos : Int := 0
  let (_header, pos) := readBytes data pos 4
  let (_headerLength, pos) := readInt32 data pos
  let (format, pos) := readInt16 data pos
  let (trackCount, pos) := readInt16 data pos
  let (division, pos) := readInt16 data pos
  (parseTracks data division fuel trackCount.toNat pos).map fun tsp =>
    { format := format, trackCount := trackCount, division := division,
      tracks := tsp.1, maxTime := maxTimeOf tsp.1 }

/-- Modelled from the spec, for refinement comparison only (spec §4.2):
    identical to `parse` except that after reading the three 16-bit header
    fields it advances the cursor by `declaredLength - 6` extra bytes, as
    the specification's forward-compatibility rule requires.  The script
    itself has no such step. -/
def parseWithHeaderSkip (data : List Nat) (fuel : Nat) : Option Sequence :=
  let pos : Int := 0
  let (_header, pos) := readBytes data pos 4
  let (headerLength, pos) := readInt32 data pos
  let (format, pos) := readInt16 data pos
  let (trackCount, pos) := readInt16 data pos
  let (division, pos) := readInt16 data pos
  let pos := pos + (headerLength - 6)
  (parseTracks data division fuel trackCount.toNat pos).map fun tsp =>
    { format := format, trackCount := trackCount, division := division,
      tracks := tsp.1, maxTime := maxTimeOf tsp.1 }

/-! ### Concrete input buffers used by the claims -/

/-- The running-status scenario of spec §8: one track whose first event is
    `0x90 60 64` (explicit Note-On status) and whose second event consists
    of the bare data bytes `62 64` with no new status byte. -/
def runningStatusBuf : List Nat :=
  [0x4D, 0x54, 0x68, 0x64, 0, 0, 0, 6, 0, 0, 0, 1, 0, 96,
   0x4D, 0x54, 0x72, 0x6B, 0, 0, 0, 7,
   0, 0x90, 60, 64, 0, 62, 64]

/-- A well-formed header whose declared track count is 0. -/
def zeroTracksBuf : List Nat :=
  [0x4D, 0x54, 0x68, 0x64, 0, 0, 0, 6, 0, 0, 0, 0, 0, 96]

/-- A buffer truncated in the middle of a channel-voice event: the track
    declares 4 bytes of event data but only `0x00 0x90` are present. -/
def truncatedEventBuf : List Nat :=
  [0x4D, 0x54, 0x68, 0x64, 0, 0, 0, 6, 0, 0, 0, 1, 0, 96,
   0x4D, 0x54, 0x72, 0x6B, 0, 0, 0, 4, 0, 0x90]

/-- A buffer truncated in the middle of a track's 4-byte chunk-length
    field: the complete 14-byte header and the `MTrk` tag are present, but
    only the first two of the four length bytes remain. -/
def midChunkLenBuf : List Nat :=
  [0x4D, 0x54, 0x68, 0x64, 0, 0, 0, 6, 0, 0, 0, 1, 0, 96,
   0x4D, 0x54, 0x72, 0x6B, 0, 0]

/-- A buffer whose header chunk tag is `XXXX` and whose track chunk tag is
    `YYYY` instead of the conventional `MThd` / `MTrk` markers. -/
def wrongTagsBuf : List Nat :=
  [0x58, 0x58, 0x58, 0x58, 0, 0, 0, 6, 0, 0, 0, 1, 0, 96,
   0x59, 0x59, 0x59, 0x59, 0, 0, 0, 4, 0, 0x90, 60, 64]

/-- A buffer whose header declares length 14, followed by 8 reserved bytes
    (all zero) and then a well-formed one-event track chunk.  A decoder
    that skips the `declaredLength - 6` reserved bytes reads the Note-On;
    the script reads the zero padding as a zero-length track instead. -/
def longHeaderBuf : List Nat :=
  [0x4D, 0x54, 0x68, 0x64, 0, 0, 0, 14, 0, 0, 0, 1, 0, 96,
   0, 0, 0, 0, 0, 0, 0, 0,
   0x4D, 0x54, 0x72, 0x6B, 0, 0, 0, 4, 0, 0x90, 60, 64]

/-- A track chunk that declares only 2 bytes of event data (ending at
    offset 24) although its single channel-voice event occupies 4 bytes:
    the data bytes at offsets 24 and 25 lie beyond the declared end. -/
def overrunBuf : List Nat :=
  [0x4D, 0x54, 0x68, 0x64, 0, 0, 0, 6, 0, 0, 0, 1, 0, 96,
   0x4D, 0x54, 0x72, 0x6B, 0, 0, 0, 2, 0, 0x90, 60, 64]

/-- A buffer on which the event loop never terminates: the single meta
    event's var-length payload size is `0xFF 0xFF 0xFF 0xFF 0x78`, which
    the 32-bit accumulation of `readVarLength` wraps to `-8`, so
    `readBytes(-8)` moves the cursor exactly back to the start of the
    iteration (offset 22) and the loop repeats with identical state
    forever (`trackEnd` is 31). -/
def loopBuf : List Nat :=
  [0x4D, 0x54, 0x68, 0x64, 0, 0, 0, 6, 0, 0, 0, 1, 0, 96,
   0x4D, 0x54, 0x72, 0x6B, 0, 0, 0, 9,
   0x00, 0xFF, 0x00, 0xFF, 0xFF, 0xFF, 0xFF, 0x78]

/-- A one-event file whose eight chunk-tag bytes are arbitrary: header tag
    `a b c d`, declared length 6, one track with tag `e f g h`, 4 bytes of
    event data `0x00 0x90 60 64`. -/
def tagFamilyBuf (a b c d e f g h : Nat) : List Nat :=
  [a, b, c, d, 0, 0, 0, 6, 0, 0, 0, 1, 0, 96,
   e, f, g, h, 0, 0, 0, 4, 0, 0x90, 60, 64]

/-- A one-event file whose four declared-header-length bytes are arbitrary:
    tag `MThd`, declared length `a b c d`, one `MTrk` track with 4 bytes of
    event data `0x00 0x90 60 64` starting at the fixed offset 14. -/
def lenFamilyBuf (a b c d : Nat) : List Nat :=
  [0x4D, 0x54, 0x68, 0x64, a, b, c, d, 0, 0, 0, 1, 0, 96,
   0x4D, 0x54, 0x72, 0x6B, 0, 0, 0, 4, 0, 0x90, 60, 64]

/-- The spec §8 concrete scenario: one track containing
    `NoteOn(60,64)@0`, `NoteOff(60)@96` and an end-of-track meta event. -/
def scenarioBuf : List Nat :=
  [0x4D, 0x54, 0x68, 0x64, 0, 0, 0, 6, 0, 0, 0, 1, 0, 96,
   0x4D, 0x54, 0x72, 0x6B, 0, 0, 0, 12,
   0, 0x90, 60, 64, 96, 0x80, 60, 0, 0, 0xFF, 0x2F, 0]

/-- All event timestamps of a track list, in track order (used to state
    what the assembler's maximum ranges over). -/
def allEventTimes (tracks : List Track) : List Int :=
  tracks.foldr (fun t acc => t.events.map RawEvent.time ++ acc) []

/-- Modelled from the spec (§4.1, §8): the integer value of a base-128
    variable-length byte sequence, most-significant 7-bit group first. -/
def varLengthValue (bs : List Nat) : Nat :=
  bs.foldl (fun acc b => acc * 128 + b % 128) 0

/-- Modelled from the spec (§8): a valid base-128 variable-length encoding —
    a nonempty byte sequence whose bytes all have the continuation bit
    (0x80) set except the last, which has it clear. -/
def validEncoding : List Nat → Bool
  | [] => false
  | [b] => decide (b < 256) && (b &&& 0x80 == 0)
  | b :: rest => decide (b < 256) && (b &&& 0x80 != 0) && validEncoding rest

/-! ### General lemmas about the loop -/

/-- When the cursor has reached (or passed) the track end, the event loop
    exits immediately, whatever fuel remains. -/
theorem trackLoop_done (data : List Nat) (trackEnd : Int) (fuel : Nat)
    (s : TrackState) (h : ¬ s.pos < trackEnd) :
    trackLoop data trackEnd fuel s = some s := by
  cases fuel <;> simp [trackLoop, h]

/-- One unfolding step of the event loop with positive fuel. -/
theorem trackLoop_succ (data : List Nat) (trackEnd : Int) (fuel : Nat)
    (s : TrackState) :
    trackLoop data trackEnd (fuel + 1) s =
      if s.pos < trackEnd then trackLoop data trackEnd fuel (stepEvent data s)
      else some s := rfl

/-- `parse` unfolded down to the track loop: the header reads fix the three
    16-bit fields at offsets 8, 10 and 12 and leave the cursor at 14. -/
theorem parse_unfold (data : List Nat) (fuel : Nat) :
    parse data fuel =
      (parseTracks data (readInt16 data 12).1 fuel (readInt16 data 10).1.toNat
          14).map
        (fun tsp =>
          { format := (readInt16 data 8).1, trackCount := (readInt16 data 10).1,
            division := (readInt16 data 12).1, tracks := tsp.1,
            maxTime := maxTimeOf tsp.1 }) := rfl

/-- `parseTrack` unfolded down to the track loop: 4 tag bytes and a 4-byte
    length are consumed, and the end offset is the cursor plus the declared
    length. -/
theorem parseTrack_unfold (data : List Nat) (pos division : Int) (fuel : Nat) :
    parseTrack data pos division fuel =
      (trackLoop data (pos + 4 + 4 + (readInt32 data (pos + 4)).1) fuel
          ⟨pos + 4 + 4, 0, 0, []⟩).map
        (fun s => ({ events := s.events }, s.pos)) := rfl

/-- One unfolding step of the track-count loop. -/
theorem parseTracks_succ (data : List Nat) (division : Int) (fuel n : Nat)
    (pos : Int) :
    parseTracks data division fuel (n + 1) pos =
      (parseTrack data pos division fuel).bind fun tp =>
        (parseTracks data division fuel n tp.2).map fun tsp =>
          (tp.1 :: tsp.1, tsp.2) := rfl

/-- Shared evaluation helper: any buffer whose header fields read as
    `format 0, trackCount 1, division 96`, whose track length reads as 4,
    and whose single event-loop step emits the Note-On `(60, 64)` at time 0
    and stops at offset 26, parses to the corresponding one-event
    Sequence. -/
theorem parse_oneNoteTrack (data : List Nat) (fuel : Nat)
    (h16a : readInt16 data 8 = (0, 10))
    (h16b : readInt16 data 10 = (1, 12))
    (h16c : readInt16 data 12 = (96, 14))
    (h32 : readInt32 data 18 = (4, 22))
    (hstep : stepEvent data ⟨22, 0, 0, []⟩ =
      ⟨26, 0, 0x90, [RawEvent.noteOn 0 (some 60) (some 64)]⟩) :
    parse data (fuel + 1) =
      some { format := 0, trackCount := 1, division := 96,
             tracks := [{ events := [RawEvent.noteOn 0 (some 60) (some 64)] }],
             maxTime := some 0 } := by
  have hTL : trackLoop data 26 (fuel + 1) ⟨22, 0, 0, []⟩ =
      some ⟨26, 0, 0x90, [RawEvent.noteOn 0 (some 60) (some 64)]⟩ := by
    rw [trackLoop_succ, if_pos (by decide), hstep]
    exact trackLoop_done _ _ _ _ (by decide)
  have hPT : parseTrack data 14 96 (fuel + 1) =
      some (⟨[RawEvent.noteOn 0 (some 60) (some 64)]⟩, 26) := by
    rw [parseTrack_unfold]
    norm_num
    rw [h32]
    norm_num
    rw [hTL]
    exact ⟨_, rfl, rfl, rfl⟩
  have hPTs : parseTracks data 96 (fuel + 1) 1 14 =
      some ([⟨[RawEvent.noteOn 0 (some 60) (some 64)]⟩], 26) := by
    have e1 : parseTracks data 96 (fuel + 1) 1 14 =
        (parseTrack data 14 96 (fuel + 1)).bind fun tp =>
          (parseTracks data 96 (fuel + 1) 0 tp.2).map fun tsp =>
            (tp.1 :: tsp.1, tsp.2) :=
      parseTracks_succ data 96 (fuel + 1) 0 14
    rw [e1, hPT]
    rfl
  rw [parse_unfold]
  simp only [h16a, h16b, h16c]
  norm_num
  rw [hPTs]
  exact ⟨_, ⟨26, rfl⟩, rfl, rfl⟩

/-- A parsed sequence's `maxTime` field is always the `maxTimeOf` its own
    track list. -/
theorem parse_maxTime_eq (data : List Nat) (fuel : Nat) (seq : Sequence)
    (hp : parse data fuel = some seq) :
    seq.maxTime = maxTimeOf seq.tracks := by
  rw [parse_unfold] at hp
  rcases hpe : parseTracks data (readInt16 data 12).1 fuel
      (readInt16 data 10).1.toNat 14 with _ | tsp
  · rw [hpe] at hp
    exact absurd hp (by simp)
  · rw [hpe] at hp
    simp only [Option.map_some'] at hp
    have h := Option.some.inj hp
    subst h
    rfl

/-- The inner per-track maximum is never negative (0 is always among the
    spread arguments). -/
theorem foldr_max_nonneg (xs : List Int) : 0 ≤ xs.foldr max 0 := by
  induction xs with
  | nil => exact le_refl 0
  | cons x xs ih => exact le_trans ih (le_max_right x _)

/-- Folding `max` over a list with a non-negative base equals the max of
    the zero-based fold and the base. -/
theorem foldr_max_base (xs : List Int) (b : Int) (hb : 0 ≤ b) :
    xs.foldr max b = max (xs.foldr max 0) b := by
  induction xs with
  | nil => simp [max_eq_right hb]
  | cons x xs ih => simp [ih, max_assoc]

/-- On a nonempty track list the script's nested `Math.max` reduction
    equals the max of 0 and every contained event time. -/
theorem maxTimeOf_nonempty (tracks : List Track) (h : tracks ≠ []) :
    maxTimeOf tracks = some ((allEventTimes tracks).foldr max 0) := by
  induction tracks with
  | nil => exact absurd rfl h
  | cons t ts ih =>
    cases ts with
    | nil =>
      simp [maxTimeOf, allEventTimes, trackMaxTime]
    | cons t2 ts2 =>
      have hrest := ih (by simp)
      have hm : maxTimeOf (t :: t2 :: ts2) =
          match maxTimeOf (t2 :: ts2) with
          | none => some (trackMaxTime t)
          | some m => some (max (trackMaxTime t) m) := rfl
      rw [hm, hrest]
      have ha : allEventTimes (t :: t2 :: ts2) =
          t.events.map RawEvent.time ++ allEventTimes (t2 :: ts2) := rfl
      rw [ha, List.foldr_append,
        foldr_max_base _ _ (foldr_max_nonneg (allEventTimes (t2 :: ts2)))]
      rfl

theorem toUint32_natCast (n : Nat) (h : n < 4294967296) :
    toUint32 ((n : Nat) : Int) = n := by
  unfold toUint32
  rw [Int.emod_eq_of_lt (Int.ofNat_nonneg n) (by exact_mod_cast h)]
  simp

theorem toInt32_natCast (n : Nat) (h : n < 2147483648) :
    toInt32 ((n : Nat) : Int) = ((n : Nat) : Int) := by
  unfold toInt32
  rw [toUint32_natCast n (by omega)]
  rw [if_pos h]

theorem le_mul_128 (r : Nat) : r ≤ r * 128 :=
  calc r = r * 1 := (mul_one r).symm
    _ ≤ r * 128 := Nat.mul_le_mul_left r (by norm_num)

theorem jsShl7_natCast (r : Nat) (h : r * 128 < 2147483648) :
    jsShl ((r : Nat) : Int) 7 = ((r * 128 : Nat) : Int) := by
  have := le_mul_128 r
  unfold jsShl
  rw [toUint32_natCast r (by omega)]
  rw [Nat.shiftLeft_eq]
  norm_num
  have h2 := toInt32_natCast (r * 128) h
  norm_num at h2
  exact h2

theorem jsOr_shl7 (r m : Nat) (hm : m < 128) (hb : r * 128 + m < 2147483648) :
    jsOr (jsShl ((r : Nat) : Int) 7) ((m : Nat) : Int) = ((r * 128 + m : Nat) : Int) := by
  have hr128 := le_mul_128 r
  rw [jsShl7_natCast r (by omega)]
  unfold jsOr
  rw [toUint32_natCast (r * 128) (by omega), toUint32_natCast m (by omega)]
  have hm7 : m < 2 ^ 7 := by norm_num; exact hm
  have h := Nat.mul_add_lt_is_or hm7 r
  have hlor : Nat.lor (r * 128) m = r * 128 + m := by
    have hc : r * 128 = 2 ^ 7 * r := by ring
    show r * 128 ||| m = r * 128 + m
    rw [hc, ← h]
  rw [hlor]
  exact toInt32_natCast _ hb

theorem and127_eq_mod (b : Nat) : b &&& 0x7f = b % 128 := by
  have h := Nat.and_pow_two_sub_one_eq_mod b 7
  norm_num at h
  exact h

theorem foldl_digits_mono (bs : List Nat) :
    ∀ r : Nat, r ≤ bs.foldl (fun acc b => acc * 128 + b % 128) r := by
  induction bs with
  | nil => intro r; exact le_refl r
  | cons b rest ih =>
    intro r
    exact le_trans (le_trans (le_mul_128 r) (Nat.le_add_right _ _)) (ih _)

theorem rvlAux_cons (b : Nat) (bs : List Nat) (r : Int) :
    rvlAux (b :: bs) r =
      if (b &&& 0x80 : Nat) ≠ 0 then
        ((rvlAux bs (jsOr (jsShl r 7) ((b &&& 0x7f : Nat) : Int))).1,
         (rvlAux bs (jsOr (jsShl r 7) ((b &&& 0x7f : Nat) : Int))).2 + 1)
      else (jsOr (jsShl r 7) ((b &&& 0x7f : Nat) : Int), 1) := by
  by_cases h : (b &&& 0x80 : Nat) ≠ 0 <;> simp [rvlAux, h]

theorem rvlAux_encoding (bs : List Nat) :
    ∀ (tail : List Nat) (r : Nat),
      validEncoding bs = true →
      bs.foldl (fun acc b => acc * 128 + b % 128) r < 2147483648 →
      rvlAux (bs ++ tail) ((r : Nat) : Int) =
        (((bs.foldl (fun acc b => acc * 128 + b % 128) r : Nat) : Int),
          bs.length) := by
  induction bs with
  | nil => intro _ _ hv _; exact absurd hv (by decide)
  | cons b rest ih =>
    intro tail r hv hlt
    cases rest with
    | nil =>
      have hb80 : b &&& 0x80 = 0 := by
        simp only [validEncoding, Bool.and_eq_true, beq_iff_eq,
          decide_eq_true_eq] at hv
        exact hv.2
      have hfold : (List.foldl (fun acc b => acc * 128 + b % 128) r [b]) =
          r * 128 + b % 128 := rfl
      show rvlAux (b :: tail) ((r : Nat) : Int) = _
      rw [rvlAux_cons]
      rw [if_neg (by simp [hb80])]
      rw [and127_eq_mod b]
      rw [jsOr_shl7 r (b % 128) (Nat.mod_lt b (by norm_num))
        (by rw [hfold] at hlt; exact hlt)]
      simp
    | cons b2 rest2 =>
      have hb80 : b &&& 0x80 ≠ 0 := by
        simp only [validEncoding, Bool.and_eq_true, bne_iff_ne,
          decide_eq_true_eq] at hv
        exact hv.1.2
      have hv' : validEncoding (b2 :: rest2) = true := by
        simp only [validEncoding, Bool.and_eq_true] at hv ⊢
        exact hv.2
      have hfold : List.foldl (fun acc b => acc * 128 + b % 128) r (b :: b2 :: rest2) =
          List.foldl (fun acc b => acc * 128 + b % 128) (r * 128 + b % 128)
            (b2 :: rest2) := rfl
      have hlt' : List.foldl (fun acc b => acc * 128 + b % 128) (r * 128 + b % 128)
          (b2 :: rest2) < 2147483648 := by rw [hfold] at hlt; exact hlt
      have hstep : r * 128 + b % 128 < 2147483648 :=
        lt_of_le_of_lt (foldl_digits_mono (b2 :: rest2) _) hlt'
      show rvlAux (b :: ((b2 :: rest2) ++ tail)) ((r : Nat) : Int) = _
      rw [rvlAux_cons]
      rw [if_pos (by exact hb80)]
      rw [and127_eq_mod b]
      rw [jsOr_shl7 r (b % 128) (Nat.mod_lt b (by norm_num)) hstep]
      rw [ih tail (r * 128 + b % 128) hv' hlt']
      simp [hfold]

/-! ### Claim C1 — running-status continuation -/

/-- Claim C1: the script consumes the two bytes of a running-status
    continuation but pushes no event for it (the `else` branch at lines
    92-95 reads `data1`/`data2` and discards them, and the `runningStatus`
    variable assigned at line 70 is never read).  On the spec's concrete
    running-status scenario — `0x90 60 64` followed by bare `62 64` — the
    parse therefore yields exactly one Note-On, not the two events the
    claim requires. -/
theorem c1_running_status_event_dropped :
    parse runningStatusBuf 2 =
      some { format := 0, trackCount := 1, division := 96,
             tracks := [{ events := [RawEvent.noteOn 0 (some 60) (some 64)] }],
             maxTime := some 0 } := rfl

/-! ### Claim C2 — maxTime -/

/-- Claim C2 counterexample: a header declaring `trackCount = 0` parses to
    a sequence whose `maxTime` is `none` (JavaScript `-Infinity`, the value
    of `Math.max()` applied to an empty spread), not `0` as the claim
    states. -/
theorem c2_zero_tracks_maxTime_counterexample :
    parse zeroTracksBuf 1 =
      some { format := 0, trackCount := 0, division := 96, tracks := [],
             maxTime := none } ∧
    parse zeroTracksBuf 1 ≠
      some { format := 0, trackCount := 0, division := 96, tracks := [],
             maxTime := some 0 } :=
  ⟨rfl, by decide⟩

/-- Claim C2 amended: `maxTime` is the nested `Math.max` reduction of the
    parsed tracks — on an empty track list it is `-Infinity` (here `none`),
    not 0, and on a nonempty track list it is the maximum of 0 and all
    event times (so 0 when every track is empty). -/
theorem c2_amended_maxTime (data : List Nat) (fuel : Nat) (seq : Sequence)
    (hp : parse data fuel = some seq) :
    (seq.tracks = [] → seq.maxTime = none) ∧
    (seq.tracks ≠ [] →
      seq.maxTime = some ((allEventTimes seq.tracks).foldr max 0)) := by
  have hmt := parse_maxTime_eq data fuel seq hp
  refine ⟨fun h => ?_, fun h => ?_⟩
  · rw [hmt, h]; rfl
  · rw [hmt, maxTimeOf_nonempty seq.tracks h]

/-- Witness for the amended C2 on the spec §8 scenario buffer, whose parse
    result has one track with events at times 0 and 96 and `maxTime` 96. -/
theorem c2_amended_maxTime_witness :
    (([({ events := [RawEvent.noteOn 0 (some 60) (some 64),
          RawEvent.noteOff 96 (some 60)] } : Track)] : List Track) = [] →
        (some 96 : Option Int) = none) ∧
    (([({ events := [RawEvent.noteOn 0 (some 60) (some 64),
          RawEvent.noteOff 96 (some 60)] } : Track)] : List Track) ≠ [] →
        (some 96 : Option Int) =
          some ((allEventTimes
            [({ events := [RawEvent.noteOn 0 (some 60) (some 64),
                RawEvent.noteOff 96 (some 60)] } : Track)]).foldr max 0)) :=
  c2_amended_maxTime scenarioBuf 3
    ⟨0, 1, 96,
      [{ events := [RawEvent.noteOn 0 (some 60) (some 64),
          RawEvent.noteOff 96 (some 60)] }], some 96⟩ rfl

/-! ### Claim C3 — explicit-status channel-voice events -/

/-- Claim C3: on an explicit channel-voice status byte (high bit set, not
    0xFF/0xF0/0xF7) the decoder consumes the status byte plus exactly two
    data bytes (cursor advances by 3 from the post-delta position), records
    the byte as runningStatus, and emits a NoteOn exactly when the message
    kind is 0x90 with velocity > 0, a NoteOff exactly when the kind is 0x80
    or the kind is 0x90 with velocity equal to 0, and nothing otherwise. -/
theorem c3_channel_voice_classification (data : List Nat) (s : TrackState) (b : Nat)
    (hb : jsByte data (readVarLength data s.pos).2 = some b)
    (hff : b ≠ 0xff) (hf0 : b ≠ 0xf0) (hf7 : b ≠ 0xf7)
    (hhi : b &&& 0x80 ≠ 0) :
    (stepEvent data s).pos = (readVarLength data s.pos).2 + 3 ∧
    (stepEvent data s).currentTime = s.currentTime + (readVarLength data s.pos).1 ∧
    (stepEvent data s).runningStatus = b ∧
    ((stepEvent data s).events =
        s.events ++ [RawEvent.noteOn (s.currentTime + (readVarLength data s.pos).1)
          (jsByte data ((readVarLength data s.pos).2 + 1))
          (jsByte data ((readVarLength data s.pos).2 + 2))] ↔
      b &&& 0xf0 = 0x90 ∧
        jsNumGtZero (jsByte data ((readVarLength data s.pos).2 + 2)) = true) ∧
    ((stepEvent data s).events =
        s.events ++ [RawEvent.noteOff (s.currentTime + (readVarLength data s.pos).1)
          (jsByte data ((readVarLength data s.pos).2 + 1))] ↔
      (b &&& 0xf0 = 0x80 ∨ (b &&& 0xf0 = 0x90 ∧
        jsByte data ((readVarLength data s.pos).2 + 2) = some 0))) ∧
    ((stepEvent data s).events = s.events ↔
      (¬(b &&& 0xf0 = 0x90 ∧
          jsNumGtZero (jsByte data ((readVarLength data s.pos).2 + 2)) = true) ∧
       ¬(b &&& 0xf0 = 0x80 ∨ (b &&& 0xf0 = 0x90 ∧
          jsByte data ((readVarLength data s.pos).2 + 2) = some 0)))) := by
  have h9080 : ¬(b &&& 0xf0 = 0x90 ∧ b &&& 0xf0 = 0x80) := by
    rintro ⟨h1, h2⟩; rw [h1] at h2; exact absurd h2 (by decide)
  by_cases h90 : b &&& 0xf0 = 0x90 <;> by_cases h80 : b &&& 0xf0 = 0x80
  · exact absurd ⟨h90, h80⟩ h9080
  · cases hd2 : jsByte data ((readVarLength data s.pos).2 + 2) with
    | none =>
      refine ⟨?_, ?_, ?_, ?_, ?_, ?_⟩ <;>
        simp [stepEvent, hb, hff, hf0, hf7, hhi, h90, h80, hd2, jsNumGtZero]
    | some v =>
      rcases Nat.eq_zero_or_pos v with hv | hv
      · subst hv
        refine ⟨?_, ?_, ?_, ?_, ?_, ?_⟩ <;>
          simp [stepEvent, hb, hff, hf0, hf7, hhi, h90, h80, hd2, jsNumGtZero]
      · refine ⟨?_, ?_, ?_, ?_, ?_, ?_⟩ <;>
          simp [stepEvent, hb, hff, hf0, hf7, hhi, h90, h80, hd2, jsNumGtZero,
            Nat.pos_iff_ne_zero, hv, Nat.ne_of_gt hv]
  · refine ⟨?_, ?_, ?_, ?_, ?_, ?_⟩ <;>
      simp [stepEvent, hb, hff, hf0, hf7, hhi, h90, h80, jsNumGtZero]
  · refine ⟨?_, ?_, ?_, ?_, ?_, ?_⟩ <;>
      simp [stepEvent, hb, hff, hf0, hf7, hhi, h90, h80, jsNumGtZero]

/-- Witness for C3 at the event `0x90 60 64` preceded by delta 0. -/
theorem c3_channel_voice_classification_witness :
    (stepEvent [0x00, 0x90, 60, 64] ⟨0, 0, 0, []⟩).pos = 4 ∧
    (stepEvent [0x00, 0x90, 60, 64] ⟨0, 0, 0, []⟩).currentTime = 0 ∧
    (stepEvent [0x00, 0x90, 60, 64] ⟨0, 0, 0, []⟩).runningStatus = 0x90 ∧
    ((stepEvent [0x00, 0x90, 60, 64] ⟨0, 0, 0, []⟩).events =
        [] ++ [RawEvent.noteOn 0 (some 60) (some 64)] ↔
      (0x90 &&& 0xf0 = 0x90 ∧ jsNumGtZero (some 64) = true)) ∧
    ((stepEvent [0x00, 0x90, 60, 64] ⟨0, 0, 0, []⟩).events =
        [] ++ [RawEvent.noteOff 0 (some 60)] ↔
      (0x90 &&& 0xf0 = 0x80 ∨ (0x90 &&& 0xf0 = 0x90 ∧
        (some 64 : Option Nat) = some 0))) ∧
    ((stepEvent [0x00, 0x90, 60, 64] ⟨0, 0, 0, []⟩).events = [] ↔
      (¬(0x90 &&& 0xf0 = 0x90 ∧ jsNumGtZero (some 64) = true) ∧
       ¬(0x90 &&& 0xf0 = 0x80 ∨ (0x90 &&& 0xf0 = 0x90 ∧
          (some 64 : Option Nat) = some 0)))) :=
  c3_channel_voice_classification [0x00, 0x90, 60, 64] ⟨0, 0, 0, []⟩ 0x90 rfl
    (by decide) (by decide) (by decide) (by decide)

/-! ### Claim C4 — truncation -/

/-- Reading at or past the end of the buffer yields `undefined`. -/
theorem jsByte_pastEnd (data : List Nat) (i : Int)
    (h : (data.length : Int) ≤ i) : jsByte data i = none := by
  have h0 : 0 ≤ i := le_trans (Int.ofNat_nonneg data.length) h
  have hlen : data.length ≤ i.toNat := by omega
  simp [jsByte, if_pos h0, List.drop_eq_nil_of_le hlen]

/-- A 32-bit read entirely past the end of the buffer yields 0. -/
theorem readInt32_pastEnd (data : List Nat) (pos : Int)
    (h : (data.length : Int) ≤ pos) : readInt32 data pos = (0, pos + 4) := by
  unfold readInt32
  rw [jsByte_pastEnd data pos h, jsByte_pastEnd data (pos + 1) (by omega),
    jsByte_pastEnd data (pos + 2) (by omega),
    jsByte_pastEnd data (pos + 3) (by omega)]
  rfl

/-- A track decoded entirely past the end of the buffer consumes the 8
    tag/length bytes, reads a declared length of 0 and returns an empty
    track at once. -/
theorem parseTrack_pastEnd (data : List Nat) (pos division : Int) (fuel : Nat)
    (h : (data.length : Int) ≤ pos) :
    parseTrack data pos division fuel = some (⟨[]⟩, pos + 4 + 4) := by
  rw [parseTrack_unfold, readInt32_pastEnd data (pos + 4) (by omega)]
  have hdone : trackLoop data (pos + 4 + 4 + ((0 : Int), pos + 4 + 4).1) fuel
      ⟨pos + 4 + 4, 0, 0, []⟩ = some ⟨pos + 4 + 4, 0, 0, []⟩ :=
    trackLoop_done _ _ _ _ (by show ¬ pos + 4 + 4 < pos + 4 + 4 + 0; omega)
  rw [hdone]
  rfl

/-- The track-count loop succeeds (for any declared count) once the cursor
    is past the end of the buffer. -/
theorem parseTracks_pastEnd (data : List Nat) (division : Int) (fuel : Nat) :
    ∀ (n : Nat) (pos : Int), (data.length : Int) ≤ pos →
      (parseTracks data division fuel n pos).isSome = true := by
  intro n
  induction n with
  | zero => intro pos _; rfl
  | succ n ih =>
    intro pos h
    rw [parseTracks_succ, parseTrack_pastEnd data pos division fuel h]
    have := ih (pos + 4 + 4) (by omega)
    obtain ⟨tsp, htsp⟩ := Option.isSome_iff_exists.mp this
    simp [htsp]

/-- Claim C4 counterexample: truncated buffers do not fail.  The empty
    buffer (cut off mid-header) parses to a Sequence with all header
    fields 0, and a buffer cut off in the middle of a channel-voice event
    parses to a Sequence with an empty event list — no `TruncatedInput`
    error exists anywhere in the script. -/
theorem c4_truncation_counterexample :
    parse [] 1 =
      some { format := 0, trackCount := 0, division := 0, tracks := [],
             maxTime := none } ∧
    parse truncatedEventBuf 1 =
      some { format := 0, trackCount := 1, division := 96,
             tracks := [{ events := [] }], maxTime := some 0 } :=
  ⟨rfl, rfl⟩

/-- Claim C4 amended: no `TruncatedInput` error exists — there is no
    bounds check; reads past the end of the buffer produce `undefined`
    (coerced to 0 by the arithmetic) or short slices, and decoding
    proceeds on those values rather than failing.  Every buffer cut off
    before the end of the 14-byte fixed header parses to a Sequence
    (whatever track count its partial bytes declare), and a buffer cut
    off in the middle of a track's chunk-length field likewise returns a
    Sequence, reading the missing length bytes as zero.  (A mid-event
    truncation also returns a short Sequence silently — see the
    counterexample — except when it triggers the separate non-termination
    bug of C10; in no case is a truncation error raised.) -/
theorem c4_amended_no_truncation_failure (data : List Nat) (fuel : Nat)
    (h : data.length < 14) :
    (parse data fuel).isSome = true ∧
    parse midChunkLenBuf 1 =
      some { format := 0, trackCount := 1, division := 96,
             tracks := [{ events := [] }], maxTime := some 0 } := by
  refine ⟨?_, rfl⟩
  rw [parse_unfold]
  have hps := parseTracks_pastEnd data (readInt16 data 12).1 fuel
    (readInt16 data 10).1.toNat 14 (by omega)
  obtain ⟨tsp, htsp⟩ := Option.isSome_iff_exists.mp hps
  simp [htsp]

/-- Witness for the amended C4 at the empty buffer. -/
theorem c4_amended_no_truncation_failure_witness :
    ([] : List Nat).length < 14 ∧
    ((parse [] 1).isSome = true ∧
      parse midChunkLenBuf 1 =
        some { format := 0, trackCount := 1, division := 96,
               tracks := [{ events := [] }], maxTime := some 0 }) :=
  ⟨by decide, c4_amended_no_truncation_failure [] 1 (by decide)⟩

/-! ### Claim C5 — chunk-tag validation -/

/-- Claim C5 counterexample: a buffer whose header tag is `XXXX` and whose
    track tag is `YYYY` is decoded successfully — the script reads the tag
    bytes into locals (`header`, `trackHeader`) and never compares them,
    so no `InvalidHeaderTag` / `InvalidTrackTag` failure occurs. -/
theorem c5_wrong_tags_accepted :
    parse wrongTagsBuf 1 =
      some { format := 0, trackCount := 1, division := 96,
             tracks := [{ events := [RawEvent.noteOn 0 (some 60) (some 64)] }],
             maxTime := some 0 } := rfl

/-- Claim C5 amended: the decoder performs no tag validation at all — for
    every choice of the four header-tag bytes and the four track-tag bytes
    the parse succeeds and produces the same result, with any fuel
    sufficient for the one event. -/
theorem c5_amended_tags_ignored (a b c d e f g h fuel : Nat) :
    parse (tagFamilyBuf a b c d e f g h) (fuel + 1) =
      some { format := 0, trackCount := 1, division := 96,
             tracks := [{ events := [RawEvent.noteOn 0 (some 60) (some 64)] }],
             maxTime := some 0 } := by
  refine parse_oneNoteTrack _ fuel ?_ ?_ ?_ ?_ ?_
  · simp only [readInt16,
      show jsByte (tagFamilyBuf a b c d e f g h) 8 = some 0 from rfl,
      show jsByte (tagFamilyBuf a b c d e f g h) (8 + 1) = some 0 from rfl]
    rfl
  · simp only [readInt16,
      show jsByte (tagFamilyBuf a b c d e f g h) 10 = some 0 from rfl,
      show jsByte (tagFamilyBuf a b c d e f g h) (10 + 1) = some 1 from rfl]
    rfl
  · simp only [readInt16,
      show jsByte (tagFamilyBuf a b c d e f g h) 12 = some 0 from rfl,
      show jsByte (tagFamilyBuf a b c d e f g h) (12 + 1) = some 96 from rfl]
    rfl
  · simp only [readInt32,
      show jsByte (tagFamilyBuf a b c d e f g h) 18 = some 0 from rfl,
      show jsByte (tagFamilyBuf a b c d e f g h) (18 + 1) = some 0 from rfl,
      show jsByte (tagFamilyBuf a b c d e f g h) (18 + 2) = some 0 from rfl,
      show jsByte (tagFamilyBuf a b c d e f g h) (18 + 3) = some 4 from rfl]
    rfl
  · simp only [stepEvent,
      show readVarLength (tagFamilyBuf a b c d e f g h) 22 = (0, 23) from rfl,
      show jsByte (tagFamilyBuf a b c d e f g h) 23 = some 0x90 from rfl,
      show jsByte (tagFamilyBuf a b c d e f g h) 24 = some 60 from rfl,
      show jsByte (tagFamilyBuf a b c d e f g h) 25 = some 64 from rfl]
    rfl

/-! ### Claim C6 — declared header length -/

/-- Claim C6 counterexample: on a buffer whose header declares length 14
    (8 reserved bytes before the first track chunk), the script does not
    skip the reserved bytes — it decodes the zero padding as a zero-length
    track and never reaches the real track's Note-On — whereas the
    spec-modelled decoder `parseWithHeaderSkip`, which advances the cursor
    by `declaredLength - 6`, decodes the Note-On. -/
theorem c6_header_length_counterexample :
    parse longHeaderBuf 1 =
      some { format := 0, trackCount := 1, division := 96,
             tracks := [{ events := [] }], maxTime := some 0 } ∧
    parseWithHeaderSkip longHeaderBuf 1 =
      some { format := 0, trackCount := 1, division := 96,
             tracks := [{ events := [RawEvent.noteOn 0 (some 60) (some 64)] }],
             maxTime := some 0 } :=
  ⟨rfl, rfl⟩

/-- Claim C6 amended: the declared header length is read into a local and
    ignored — the cursor is never advanced by `declaredLength - 6`, and the
    first track chunk is always read from the fixed offset 14.  For every
    value of the four header-length bytes the parse result is identical. -/
theorem c6_amended_header_length_ignored (a b c d fuel : Nat) :
    parse (lenFamilyBuf a b c d) (fuel + 1) =
      some { format := 0, trackCount := 1, division := 96,
             tracks := [{ events := [RawEvent.noteOn 0 (some 60) (some 64)] }],
             maxTime := some 0 } := by
  refine parse_oneNoteTrack _ fuel ?_ ?_ ?_ ?_ ?_
  · simp only [readInt16,
      show jsByte (lenFamilyBuf a b c d) 8 = some 0 from rfl,
      show jsByte (lenFamilyBuf a b c d) (8 + 1) = some 0 from rfl]
    rfl
  · simp only [readInt16,
      show jsByte (lenFamilyBuf a b c d) 10 = some 0 from rfl,
      show jsByte (lenFamilyBuf a b c d) (10 + 1) = some 1 from rfl]
    rfl
  · simp only [readInt16,
      show jsByte (lenFamilyBuf a b c d) 12 = some 0 from rfl,
      show jsByte (lenFamilyBuf a b c d) (12 + 1) = some 96 from rfl]
    rfl
  · simp only [readInt32,
      show jsByte (lenFamilyBuf a b c d) 18 = some 0 from rfl,
      show jsByte (lenFamilyBuf a b c d) (18 + 1) = some 0 from rfl,
      show jsByte (lenFamilyBuf a b c d) (18 + 2) = some 0 from rfl,
      show jsByte (lenFamilyBuf a b c d) (18 + 3) = some 4 from rfl]
    rfl
  · simp only [stepEvent,
      show readVarLength (lenFamilyBuf a b c d) 22 = (0, 23) from rfl,
      show jsByte (lenFamilyBuf a b c d) 23 = some 0x90 from rfl,
      show jsByte (lenFamilyBuf a b c d) 24 = some 60 from rfl,
      show jsByte (lenFamilyBuf a b c d) 25 = some 64 from rfl]
    rfl

/-! ### Claim C7 — variable-length round-trip -/

/-- Claim C7 counterexample: the five bytes `88 80 80 80 00` are a valid
    base-128 encoding of 2^31 = 2147483648, but `readVarLength` accumulates
    with the 32-bit signed `(result << 7) | byte` and returns the wrapped
    value `-2147483648`, not V (it does still consume exactly 5 bytes). -/
theorem c7_overflow_counterexample :
    validEncoding [0x88, 0x80, 0x80, 0x80, 0x00] = true ∧
    varLengthValue [0x88, 0x80, 0x80, 0x80, 0x00] = 2147483648 ∧
    readVarLength [0x88, 0x80, 0x80, 0x80, 0x00] 0 = (-2147483648, 5) ∧
    ((-2147483648 : Int) ≠ ((2147483648 : Nat) : Int)) :=
  ⟨by decide, by decide, rfl, by decide⟩

/-- Claim C7 amended: the round-trip holds exactly for encoded values below
    2^31 (the accumulator is a 32-bit signed integer): for every valid
    encoding of V < 2^31 placed anywhere in a buffer, `readVarLength`
    started at its first byte returns exactly V and advances the cursor by
    exactly the encoding's length; in particular `0x00` decodes to 0. -/
theorem c7_amended_varlength_roundtrip (pre bs tail : List Nat)
    (hv : validEncoding bs = true)
    (hlt : varLengthValue bs < 2147483648) :
    readVarLength (pre ++ (bs ++ tail)) ((pre.length : Nat) : Int) =
      (((varLengthValue bs : Nat) : Int),
        ((pre.length : Nat) : Int) + bs.length) := by
  unfold readVarLength
  rw [if_neg (by simp)]
  rw [show ((pre.length : Nat) : Int).toNat = pre.length by simp]
  rw [List.drop_left]
  have h0 := rvlAux_encoding bs tail 0 hv (by simpa [varLengthValue] using hlt)
  norm_num at h0
  rw [h0]
  simp [varLengthValue]

/-- Witness for the amended C7: the single byte `0x00` decodes to 0 and
    consumes one byte. -/
theorem c7_amended_varlength_roundtrip_witness :
    validEncoding [0x00] = true ∧ varLengthValue [0x00] < 2147483648 ∧
    readVarLength [0x00] 0 = (0, 1) :=
  ⟨by decide, by decide,
    c7_amended_varlength_roundtrip [] [0x00] [] (by decide) (by decide)⟩

/-! ### Claim C8 — timestamp monotonicity -/
/-- If every var-length decode started inside the buffer yields a
    non-negative value, then so does one started at any cursor (outside the
    buffer the decode reads `undefined` once and returns 0). -/
theorem rvl_nonneg_all (data : List Nat)
    (H : ∀ p : Nat, p < data.length → 0 ≤ (readVarLength data (p : Int)).1) :
    ∀ p : Int, 0 ≤ (readVarLength data p).1 := by
  intro p
  by_cases hneg : p < 0
  · unfold readVarLength
    rw [if_pos hneg]
  · by_cases hlen : p.toNat < data.length
    · have h := H p.toNat hlen
      rwa [Int.toNat_of_nonneg (not_lt.mp hneg)] at h
    · unfold readVarLength
      rw [if_neg hneg]
      rw [List.drop_eq_nil_of_le (not_lt.mp hlen)]
      rw [show rvlAux ([] : List Nat) 0 = (0, 1) from rfl]

/-- One event-loop step preserves the time invariant: assuming every
    var-length value decoded from this buffer is non-negative, the emitted
    events stay bounded by the running time and in non-decreasing order,
    and the running time never decreases. -/
theorem stepEvent_time_invariant (data : List Nat)
    (H : ∀ p : Int, 0 ≤ (readVarLength data p).1) (s : TrackState)
    (h1 : ∀ e ∈ s.events, e.time ≤ s.currentTime)
    (h2 : List.Pairwise (fun a b => a ≤ b) (s.events.map RawEvent.time)) :
    (∀ e ∈ (stepEvent data s).events, e.time ≤ (stepEvent data s).currentTime) ∧
    List.Pairwise (fun a b => a ≤ b) ((stepEvent data s).events.map RawEvent.time) ∧
    s.currentTime ≤ (stepEvent data s).currentTime := by
  have hd := H s.pos
  rcases hrvl : readVarLength data s.pos with ⟨dt, p1⟩
  rw [hrvl] at hd
  simp only at hd
  have hle : s.currentTime ≤ s.currentTime + dt := by omega
  have h1' : ∀ e ∈ s.events, e.time ≤ s.currentTime + dt :=
    fun e he => le_trans (h1 e he) hle
  unfold stepEvent
  rw [hrvl]
  dsimp only
  split_ifs with c1 c2 c3 c4 c5
  · -- meta event
    cases hx : readVarLength data (p1 + 2)
    simp only [readBytes]
    exact ⟨h1', h2, hle⟩
  · -- sysex event
    cases hx : readVarLength data (p1 + 1)
    simp only [readBytes]
    exact ⟨h1', h2, hle⟩
  · -- note on
    refine ⟨?_, ?_, hle⟩
    · intro e he
      rcases List.mem_append.mp he with h | h
      · exact h1' e h
      · rw [List.mem_singleton.mp h]
        exact le_refl _
    · show List.Pairwise (fun a b => a ≤ b)
        ((s.events ++ [RawEvent.noteOn (s.currentTime + dt)
          (jsByte data (p1 + 1)) (jsByte data (p1 + 2))]).map RawEvent.time)
      rw [List.map_append, List.pairwise_append]
      refine ⟨h2, by simp, ?_⟩
      intro a ha b hb
      simp only [List.map_cons, List.map_nil, List.mem_singleton] at hb
      subst hb
      rcases List.mem_map.mp ha with ⟨e, he, rfl⟩
      exact h1' e he
  · -- note off
    refine ⟨?_, ?_, hle⟩
    · intro e he
      rcases List.mem_append.mp he with h | h
      · exact h1' e h
      · rw [List.mem_singleton.mp h]
        exact le_refl _
    · show List.Pairwise (fun a b => a ≤ b)
        ((s.events ++ [RawEvent.noteOff (s.currentTime + dt)
          (jsByte data (p1 + 1))]).map RawEvent.time)
      rw [List.map_append, List.pairwise_append]
      refine ⟨h2, by simp, ?_⟩
      intro a ha b hb
      simp only [List.map_cons, List.map_nil, List.mem_singleton] at hb
      subst hb
      rcases List.mem_map.mp ha with ⟨e, he, rfl⟩
      exact h1' e he
  · -- other channel-voice message
    exact ⟨h1', h2, hle⟩
  · -- bare data byte
    exact ⟨h1', h2, hle⟩
/-- The event loop preserves sortedness of the emitted events. -/
theorem trackLoop_sorted (data : List Nat)
    (H : ∀ p : Int, 0 ≤ (readVarLength data p).1) (trackEnd : Int) :
    ∀ (fuel : Nat) (s s' : TrackState),
      trackLoop data trackEnd fuel s = some s' →
      (∀ e ∈ s.events, e.time ≤ s.currentTime) →
      List.Pairwise (fun a b => a ≤ b) (s.events.map RawEvent.time) →
      List.Pairwise (fun a b => a ≤ b) (s'.events.map RawEvent.time) := by
  intro fuel
  induction fuel with
  | zero =>
    intro s s' h h1 h2
    by_cases hc : s.pos < trackEnd
    · simp [trackLoop, hc] at h
    · simp [trackLoop, hc] at h
      subst h
      exact h2
  | succ n ih =>
    intro s s' h h1 h2
    by_cases hc : s.pos < trackEnd
    · rw [trackLoop_succ, if_pos hc] at h
      obtain ⟨hA, hB, _⟩ := stepEvent_time_invariant data H s h1 h2
      exact ih _ _ h hA hB
    · rw [trackLoop_succ, if_neg hc] at h
      have hs := Option.some.inj h
      subst hs
      exact h2

/-- A decoded track's event times are non-decreasing in emission order. -/
theorem parseTrack_sorted (data : List Nat)
    (H : ∀ p : Int, 0 ≤ (readVarLength data p).1)
    (pos division : Int) (fuel : Nat) (track : Track) (pos' : Int)
    (h : parseTrack data pos division fuel = some (track, pos')) :
    List.Pairwise (fun a b => a ≤ b) (track.events.map RawEvent.time) := by
  rw [parseTrack_unfold] at h
  rcases htl : trackLoop data (pos + 4 + 4 + (readInt32 data (pos + 4)).1) fuel
      ⟨pos + 4 + 4, 0, 0, []⟩ with _ | s'
  · rw [htl] at h; simp at h
  · rw [htl] at h
    simp only [Option.map_some'] at h
    have hp := Option.some.inj h
    obtain ⟨h1, _⟩ := Prod.mk.injEq _ _ _ _ |>.mp hp
    rw [← h1]
    exact trackLoop_sorted data H _ fuel _ s' htl (by simp) (by simp)

/-- Every track produced by the track-count loop has non-decreasing event
    times. -/
theorem parseTracks_sorted (data : List Nat)
    (H : ∀ p : Int, 0 ≤ (readVarLength data p).1) (division : Int) (fuel : Nat) :
    ∀ (n : Nat) (pos : Int) (tracks : List Track) (pos' : Int),
      parseTracks data division fuel n pos = some (tracks, pos') →
      ∀ t ∈ tracks,
        List.Pairwise (fun a b => a ≤ b) (t.events.map RawEvent.time) := by
  intro n
  induction n with
  | zero =>
    intro pos tracks pos' h t ht
    have hp := Option.some.inj h
    obtain ⟨h1, _⟩ := Prod.mk.injEq _ _ _ _ |>.mp hp
    rw [← h1] at ht
    exact absurd ht (List.not_mem_nil t)
  | succ n ih =>
    intro pos tracks pos' h t ht
    rw [parseTracks_succ] at h
    rcases hpt : parseTrack data pos division fuel with _ | tp
    · rw [hpt] at h; simp at h
    · rw [hpt] at h
      simp only [Option.some_bind] at h
      rcases hpts : parseTracks data division fuel n tp.2 with _ | tsp
      · rw [hpts] at h; simp at h
      · rw [hpts] at h
        simp only [Option.map_some'] at h
        have hp := Option.some.inj h
        obtain ⟨h1, _⟩ := Prod.mk.injEq _ _ _ _ |>.mp hp
        rw [← h1] at ht
        rcases List.mem_cons.mp ht with rfl | hmem
        · exact parseTrack_sorted data H pos division fuel tp.1 tp.2 (by rw [hpt])
        · exact ih tp.2 tsp.1 tsp.2 (by rw [hpts]) t hmem

/-- Claim C8: when every delta-time (indeed every var-length quantity)
    decoded from the buffer is non-negative — the format-validity premise,
    which holds for all encodings of values below 2^31 — the decoder's
    emitted event times are non-decreasing in emission order within every
    track: each event's absolute time is the previous time plus the
    non-negative decoded delta, and the order is preserved as emitted. -/
theorem c8_track_times_sorted (data : List Nat) (fuel : Nat) (seq : Sequence)
    (H : ∀ p : Nat, p < data.length → 0 ≤ (readVarLength data (p : Int)).1)
    (hp : parse data fuel = some seq) :
    ∀ t ∈ seq.tracks,
      List.Pairwise (fun a b => a ≤ b) (t.events.map RawEvent.time) := by
  have Hall := rvl_nonneg_all data H
  rw [parse_unfold] at hp
  rcases hpts : parseTracks data (readInt16 data 12).1 fuel
      (readInt16 data 10).1.toNat 14 with _ | tsp
  · rw [hpts] at hp; simp at hp
  · rw [hpts] at hp
    simp only [Option.map_some'] at hp
    have h := Option.some.inj hp
    subst h
    intro t ht
    exact parseTracks_sorted data Hall _ fuel _ 14 tsp.1 tsp.2 (by rw [hpts]) t ht

/-- Witness for C8 on the spec §8 scenario buffer (times 0 then 96). -/
theorem c8_track_times_sorted_witness :
    parse scenarioBuf 3 =
      some ⟨0, 1, 96, [⟨[RawEvent.noteOn 0 (some 60) (some 64),
        RawEvent.noteOff 96 (some 60)]⟩], some 96⟩ ∧
    List.Pairwise (fun a b : Int => a ≤ b)
      ((Track.mk [RawEvent.noteOn 0 (some 60) (some 64),
        RawEvent.noteOff 96 (some 60)]).events.map RawEvent.time) :=
  ⟨rfl,
    c8_track_times_sorted scenarioBuf 3
      ⟨0, 1, 96, [⟨[RawEvent.noteOn 0 (some 60) (some 64),
        RawEvent.noteOff 96 (some 60)]⟩], some 96⟩ (by decide) rfl
      (Track.mk [RawEvent.noteOn 0 (some 60) (some 64),
        RawEvent.noteOff 96 (some 60)]) (List.Mem.head _)⟩

/-! ### Claim C9 — track overrun -/

/-- Claim C9 counterexample: on a track chunk declaring 2 bytes of event
    data (declared end offset 24) whose single event occupies 4 bytes, the
    decoder silently reads the event's data bytes from offsets 24 and 25 —
    beyond the declared end — and returns a Sequence; no `TrackOverrun`
    failure occurs. -/
theorem c9_overrun_counterexample :
    parse overrunBuf 1 =
      some { format := 0, trackCount := 1, division := 96,
             tracks := [{ events := [RawEvent.noteOn 0 (some 60) (some 64)] }],
             maxTime := some 0 } := rfl

/-- Claim C9 amended: the loop condition `pos < trackEnd` is checked only
    at the start of each iteration; an event may overshoot the declared
    end, after which the loop simply exits and the decoder returns with
    the overshot cursor.  Here the declared end is offset 24, yet the
    returned cursor is 26 and the emitted event's note/velocity were read
    from offsets 24 and 25. -/
theorem c9_amended_overrun_silent :
    parseTrack overrunBuf 14 96 1 =
      some ({ events := [RawEvent.noteOn 0 (some 60) (some 64)] }, 26) := rfl

/-! ### Claim C10 — termination -/

/-- On `loopBuf`, one iteration of the event loop starting at offset 22
    returns to exactly the same state: delta 0, then a meta event whose
    32-bit-wrapped payload length `-8` undoes the iteration's cursor
    movement. -/
theorem stepEvent_loopBuf_fixpoint :
    stepEvent loopBuf ⟨22, 0, 0, []⟩ = ⟨22, 0, 0, []⟩ := rfl

/-- The event loop on `loopBuf` never terminates: for every fuel bound the
    loop runs out of fuel in the repeating state at offset 22 (the track
    end offset is 31, never reached). -/
theorem trackLoop_loopBuf_none (fuel : Nat) :
    trackLoop loopBuf 31 fuel ⟨22, 0, 0, []⟩ = none := by
  induction fuel with
  | zero => rfl
  | succ n ih =>
    have h : trackLoop loopBuf 31 (n + 1) ⟨22, 0, 0, []⟩ =
        trackLoop loopBuf 31 n ⟨22, 0, 0, []⟩ := rfl
    rw [h]; exact ih

/-- Claim C10: `parse` does not terminate on every input.  On `loopBuf`
    the per-event loop makes zero net cursor progress each iteration (the
    meta event's negative 32-bit-wrapped length moves the cursor back to
    the start of the iteration), so for every fuel bound the parse fails
    to complete. -/
theorem c10_parse_diverges_on_loopBuf (fuel : Nat) :
    parse loopBuf fuel = none := by
  have h : trackLoop loopBuf 31 fuel ⟨22, 0, 0, []⟩ = none :=
    trackLoop_loopBuf_none fuel
  have hpt : parseTrack loopBuf 14 96 fuel = none := by
    show (trackLoop loopBuf 31 fuel ⟨22, 0, 0, []⟩).map _ = none
    rw [h]; rfl
  have hpts : parseTracks loopBuf 96 fuel 1 14 = none := by
    show (parseTrack loopBuf 14 96 fuel).bind _ = none
    rw [hpt]; rfl
  show (parseTracks loopBuf 96 fuel 1 14).map _ = none
  rw [hpts]; rfl

end MidiParser
